import Mathlib

/-!
Verification development for the hard-sphere molecular-dynamics engine in
`src/services/PhysicsEngine.ts` (data model in `src/types.ts`).

The engine is embedded shallowly over `ℚ` (the floating-point program read
in exact real arithmetic).  The program calls `Math.sqrt`, `Math.log`,
`Math.exp`, `Math.PI` and `Math.random`, which have no computable rational
counterpart; the embedding threads an `Oracle` record through every
operation, holding

* `rand`    : the stream of `Math.random()` draws (one per call site index),
* `gauss`   : the per-particle triples produced by `gaussianRandom()`
              (a Box-Muller transform, whose range is all of `ℝ`),
* `sqrtQ`   : the value returned by `Math.sqrt`; theorems that depend on
              square roots carry the defining hypothesis
              `sqrtQ q * sqrtQ q = q` at the points where the code takes a
              root, and concrete runs use oracles that are exact on every
              perfect square they are queried at,
* `logQ`    : the value returned by `Math.log` (only copied into chart
              output, never branched on),
* `mbSpeed`, `mbEnergy` : the precomputed Maxwell-Boltzmann theoretical
              densities evaluated at a bin midpoint (their closed forms
              involve `π` and `exp`; no claim inspects their values).

Every other line of the source translates literally: JS arrays become
`List`, in-place mutation becomes explicit state passing, and the
class fields of `PhysicsEngine` become the record `Engine`.
-/

namespace MD

/-- Oracle for the transcendental and random primitives used by the code. -/
structure Oracle where
  rand : ℕ → ℚ
  gauss : ℕ → ℚ × ℚ × ℚ
  sqrtQ : ℚ → ℚ
  logQ : ℚ → ℚ
  mbSpeed : ℚ → ℚ
  mbEnergy : ℚ → ℚ

/-- `SimulationParams` from src/types.ts.  `N` is a particle count, kept as `ℕ`. -/
structure SimulationParams where
  L : ℚ
  N : ℕ
  r : ℚ
  m : ℚ
  k : ℚ
  dt : ℚ
  nu : ℚ
  equilibriumTime : ℚ
  statsDuration : ℚ
deriving DecidableEq

/-- `Particle` from src/types.ts. -/
structure Particle where
  x : ℚ
  y : ℚ
  z : ℚ
  vx : ℚ
  vy : ℚ
  vz : ℚ
  speed : ℚ
  energy : ℚ
deriving DecidableEq, Inhabited

/-- `HistogramBin` from src/types.ts. -/
structure HistogramBin where
  binStart : ℚ
  binEnd : ℚ
  count : ℕ
  probability : ℚ
  theoretical : ℚ
deriving DecidableEq, Inhabited

/-- The phase union type of `SimulationStats`; the engine itself never
produces `idle` (it is a UI-only convention). -/
inductive SimPhase
  | idle
  | equilibrating
  | collecting
  | finished
deriving DecidableEq

/-- `SimulationStats` from src/types.ts. -/
structure SimulationStats where
  time : ℚ
  temperature : ℚ
  pressure : ℚ
  meanSpeed : ℚ
  rmsSpeed : ℚ
  isEquilibrated : Bool
  progress : ℚ
  phase : SimPhase
deriving DecidableEq

/-- `ChartData` from src/types.ts; the `energyLog` entries are
(energy, logProb, theoreticalLog) and the `tempHistory` entries are
(time, error, totalEnergy). -/
structure ChartData where
  speed : List HistogramBin
  energy : List HistogramBin
  energyLog : List (ℚ × ℚ × ℚ)
  tempHistory : List (ℚ × ℚ × ℚ)
deriving DecidableEq

/-- The mutable fields of the `PhysicsEngine` class together with its
immutable `params`. -/
structure Engine where
  params : SimulationParams
  particles : List Particle
  time : ℚ
  targetTemperature : ℚ
  collectedSpeeds : List ℚ
  collectedEnergies : List ℚ
  tempHistory : List (ℚ × ℚ × ℚ)
  speedBins : List HistogramBin
  energyBins : List HistogramBin
  lastSampleTime : ℚ
deriving DecidableEq

/-- `MAX_SAMPLES` field of the class (line 11). -/
def MAX_SAMPLES : ℕ := 2000

/-- `MAX_HISTORY` field of the class (line 12). -/
def MAX_HISTORY : ℕ := 300

/-- `Math.max(lo, Math.min(hi, x))`, the per-axis clamp used at lines 69-71. -/
def clampQ (lo hi x : ℚ) : ℚ := max lo (min hi x)

/-- Bounded linear search for the least `n` with `N ≤ n ^ 3`, starting at
`n` with the given fuel. -/
def perSideSearch (N : ℕ) : ℕ → ℕ → ℕ
  | n, 0 => n
  | n, fuel + 1 => if N ≤ n ^ 3 then n else perSideSearch N (n + 1) fuel

/-- `Math.ceil(Math.pow(N, 1/3))` (line 46) read in exact real arithmetic:
the least `n` with `N ≤ n ^ 3`.  Fuel `N` suffices because `N ≤ N ^ 3`. -/
def perSide (N : ℕ) : ℕ := perSideSearch N 0 N

/-- The grid cells visited by the triple placement loop (lines 54-79), in
loop order: `i` outermost, then `j`, then `k`. -/
def cells (n : ℕ) : List (ℕ × ℕ × ℕ) :=
  (List.range n).flatMap fun i =>
    (List.range n).flatMap fun j =>
      (List.range n).map fun k => (i, j, k)

/-- `List.map` with the position of each element also passed to the
function, starting from index `s`; used to model loops whose body draws
from the random stream at the current index. -/
def mapIdxFrom {α β : Type} (f : ℕ → α → β) : ℕ → List α → List β
  | _, [] => []
  | s, a :: as => f s a :: mapIdxFrom f (s + 1) as

/-- `L / perSide`, the grid cell spacing (line 47). -/
def spacingOf (p : SimulationParams) : ℚ := p.L / (perSide p.N : ℚ)

/-- The jitter drawn for particle `c`:
`(Math.random() - 0.5) * (spacing * 0.4)` (line 58). -/
def jitterOf (o : Oracle) (spacing : ℚ) (c : ℕ) : ℚ :=
  (o.rand c - 1 / 2) * (spacing * (2 / 5))

/-- The particle pushed for cell `(i, j, k)` at running count `c`
(lines 58-75).  The same jitter value is added to all three axes, exactly
as in the source. -/
def mkParticle (p : SimulationParams) (o : Oracle) (spacing : ℚ) (c : ℕ)
    (cell : ℕ × ℕ × ℕ) : Particle :=
  let jitter := jitterOf o spacing c
  let x := (cell.1 : ℚ) * spacing + spacing / 2 + jitter
  let y := (cell.2.1 : ℚ) * spacing + spacing / 2 + jitter
  let z := (cell.2.2 : ℚ) * spacing + spacing / 2 + jitter
  let g := o.gauss c
  let speed := o.sqrtQ (g.1 * g.1 + g.2.1 * g.2.1 + g.2.2 * g.2.2)
  { x := clampQ p.r (p.L - p.r) x
    y := clampQ p.r (p.L - p.r) y
    z := clampQ p.r (p.L - p.r) z
    vx := g.1, vy := g.2.1, vz := g.2.2
    speed := speed
    energy := 1 / 2 * p.m * speed * speed }

/-- The grid placement loop of `initSystem` (lines 49-79): the loop visits
the cells in `cells (perSide N)` in order and stops once `count` reaches
`N`, so the particles produced are the first `N` cells mapped through
`mkParticle` with their running count. -/
def initParticles (p : SimulationParams) (o : Oracle) : List Particle :=
  mapIdxFrom (mkParticle p o (spacingOf p)) 0 ((cells (perSide p.N)).take p.N)

/-- One fixed-width bin layout built by `initBins` (lines 102-113 and
121-135): bin `i` spans `[i * w, (i+1) * w)` with zero count and
probability, and the theoretical density evaluated at the bin midpoint. -/
def mkBins (n : ℕ) (w : ℚ) (th : ℚ → ℚ) : List HistogramBin :=
  (List.range n).map fun (i : ℕ) =>
    { binStart := (i : ℚ) * w
      binEnd := ((i : ℚ) + 1) * w
      count := 0
      probability := 0
      theoretical := th (((i : ℚ) * w + ((i : ℚ) + 1) * w) / 2) }

/-- `initBins` (lines 90-136): derives the speed range from the target
temperature and lays out 30 fixed bins for speed and 30 for energy. -/
def initBins (o : Oracle) (m k targetTemperature : ℚ) :
    List HistogramBin × List HistogramBin :=
  let T := if 0 < targetTemperature then targetTemperature else 1
  let v_rms := o.sqrtQ (3 * k * T / m)
  let maxSpeed := v_rms * (7 / 2)
  let speedBinSize := maxSpeed / 30
  let maxEnergy := 1 / 2 * m * maxSpeed * maxSpeed
  let energyBinSize := maxEnergy / 30
  (mkBins 30 speedBinSize o.mbSpeed, mkBins 30 energyBinSize o.mbEnergy)

/-- The constructor (lines 23-26) together with `initSystem`
(lines 28-88): grid placement, target temperature from equipartition with
the hard-coded 300 fallback at `N = 0`, fixed bins, empty sample buffers,
`time = 0` and `lastSampleTime = -1`. -/
def initEngine (p : SimulationParams) (o : Oracle) : Engine :=
  let particles := initParticles p o
  let totalEnergy := (particles.map fun q => q.energy).sum
  let targetTemperature :=
    if 0 < p.N then 2 * totalEnergy / (3 * (p.N : ℚ) * p.k) else 300
  let bins := initBins o p.m p.k targetTemperature
  { params := p
    particles := particles
    time := 0
    targetTemperature := targetTemperature
    collectedSpeeds := []
    collectedEnergies := []
    tempHistory := []
    speedBins := bins.1
    energyBins := bins.2
    lastSampleTime := -1 }

/-- One axis of the wall reflection (lines 160-167): clamp to the boundary
and negate the velocity component when the coordinate leaves `[r, L-r]`. -/
def wallAxis (r Lr x v : ℚ) : ℚ × ℚ :=
  if x < r then (r, -v) else if Lr < x then (Lr, -v) else (x, v)

/-- Stage 1 of `step` for one particle (lines 155-175): advance by
`v * dt`, reflect on each wall independently, then resample the whole
velocity with probability `nu * dt` (Andersen thermostat), where `σ`
is `Math.sqrt(k * targetTemperature / m)`. -/
def moveWall (p : SimulationParams) (o : Oracle) (pColl σ : ℚ) (i : ℕ)
    (pt : Particle) : Particle :=
  let x := pt.x + pt.vx * p.dt
  let y := pt.y + pt.vy * p.dt
  let z := pt.z + pt.vz * p.dt
  let rx := wallAxis p.r (p.L - p.r) x pt.vx
  let ry := wallAxis p.r (p.L - p.r) y pt.vy
  let rz := wallAxis p.r (p.L - p.r) z pt.vz
  if o.rand i < pColl then
    { pt with x := rx.1, y := ry.1, z := rz.1
              vx := (o.gauss i).1 * σ
              vy := (o.gauss i).2.1 * σ
              vz := (o.gauss i).2.2 * σ }
  else
    { pt with x := rx.1, y := ry.1, z := rz.1
              vx := rx.2, vy := ry.2, vz := rz.2 }

/-- Stage 1 of `step` over the whole particle array. -/
def moveWallStage (p : SimulationParams) (o : Oracle) (pColl σ : ℚ)
    (ps : List Particle) : List Particle :=
  mapIdxFrom (moveWall p o pColl σ) 0 ps

/-- The squared centre distance `dx*dx + dy*dy + dz*dz` (line 195). -/
def distSqOf (p1 p2 : Particle) : ℚ :=
  (p1.x - p2.x) * (p1.x - p2.x) + (p1.y - p2.y) * (p1.y - p2.y) +
    (p1.z - p2.z) * (p1.z - p2.z)

/-- The impact speed `velAlongNormal` of lines 198-206: the relative
velocity projected on the contact normal `d / Math.sqrt(distSq)`. -/
def velAlongNormal (o : Oracle) (p1 p2 : Particle) : ℚ :=
  let dx := p1.x - p2.x
  let dy := p1.y - p2.y
  let dz := p1.z - p2.z
  let distSq := dx * dx + dy * dy + dz * dz
  let dist := o.sqrtQ distSq
  let nx := dx / dist
  let ny := dy / dist
  let nz := dz / dist
  (p1.vx - p2.vx) * nx + (p1.vy - p2.vy) * ny + (p1.vz - p2.vz) * nz

/-- The body of the pairwise collision loop for one pair (lines 185-227):
early exits on per-axis distance, squared-distance test against
`(2r)^2`, skip when separating (`velAlongNormal > 0`), equal-mass elastic
impulse, and the capped positional overlap correction. -/
def resolvePair (p : SimulationParams) (o : Oracle) (p1 p2 : Particle) :
    Particle × Particle :=
  let minDist := 2 * p.r
  let dx := p1.x - p2.x
  if minDist < dx ∨ dx < -minDist then (p1, p2) else
  let dy := p1.y - p2.y
  if minDist < dy ∨ dy < -minDist then (p1, p2) else
  let dz := p1.z - p2.z
  if minDist < dz ∨ dz < -minDist then (p1, p2) else
  let distSq := dx * dx + dy * dy + dz * dz
  if distSq < minDist * minDist then
    let dist := o.sqrtQ distSq
    let nx := dx / dist
    let ny := dy / dist
    let nz := dz / dist
    let dvx := p1.vx - p2.vx
    let dvy := p1.vy - p2.vy
    let dvz := p1.vz - p2.vz
    let van := dvx * nx + dvy * ny + dvz * nz
    if 0 < van then (p1, p2) else
    let impulseX := van * nx
    let impulseY := van * ny
    let impulseZ := van * nz
    let q1 := { p1 with vx := p1.vx - impulseX, vy := p1.vy - impulseY,
                        vz := p1.vz - impulseZ }
    let q2 := { p2 with vx := p2.vx + impulseX, vy := p2.vy + impulseY,
                        vz := p2.vz + impulseZ }
    let overlap := minDist - dist
    if 0 < overlap then
      let corr := min (overlap * (1 / 2)) (p.r * (1 / 2))
      ({ q1 with x := q1.x + corr * nx, y := q1.y + corr * ny,
                 z := q1.z + corr * nz },
       { q2 with x := q2.x - corr * nx, y := q2.y - corr * ny,
                 z := q2.z - corr * nz })
    else (q1, q2)
  else (p1, p2)

/-- The index pairs `(i, j)` with `i < j` visited by the double loop of
lines 180-183, in loop order. -/
def pairList (n : ℕ) : List (ℕ × ℕ) :=
  (List.range n).flatMap fun i =>
    ((List.range n).filter fun j => i < j).map fun j => (i, j)

/-- One iteration of the pairwise collision loop: read the current values
of particles `i` and `j`, resolve, and write both back. -/
def collidePairAt (p : SimulationParams) (o : Oracle) (arr : List Particle)
    (ij : ℕ × ℕ) : List Particle :=
  match arr[ij.1]?, arr[ij.2]? with
  | some p1, some p2 =>
    let q := resolvePair p o p1 p2
    (arr.set ij.1 q.1).set ij.2 q.2
  | _, _ => arr

/-- Stage 2 of `step` (lines 180-229): fold the pair resolution over all
index pairs, reading the current (already updated) particles at each
step, exactly as the in-place JS mutation does. -/
def collideAll (p : SimulationParams) (o : Oracle) (ps : List Particle) :
    List Particle :=
  (pairList ps.length).foldl (collidePairAt p o) ps

/-- `step()` (lines 145-239): move/walls/thermostat, pairwise collisions,
derived-quantity refresh, and `time += dt`. -/
def step (o : Oracle) (e : Engine) : Engine :=
  let pColl := e.params.nu * e.params.dt
  let σ := o.sqrtQ (e.params.k * e.targetTemperature / e.params.m)
  let ps1 := moveWallStage e.params o pColl σ e.particles
  let ps2 := collideAll e.params o ps1
  let ps3 := ps2.map fun pt =>
    let s := o.sqrtQ (pt.vx * pt.vx + pt.vy * pt.vy + pt.vz * pt.vz)
    { pt with speed := s, energy := 1 / 2 * e.params.m * s * s }
  { e with particles := ps3, time := e.time + e.params.dt }

/-- The (time, error, totalEnergy) record pushed by `collectSamples`
(lines 258-263): percent temperature error against the fixed target,
with the divide-by-zero guards of the source. -/
def tempRecordOf (e : Engine) : ℚ × ℚ × ℚ :=
  let totalEnergy := (e.particles.map fun q => q.energy).sum
  let currentT :=
    if 0 < e.params.N then 2 * totalEnergy / (3 * (e.params.N : ℚ) * e.params.k) else 0
  let error :=
    if 0 < e.targetTemperature then
      (currentT - e.targetTemperature) / e.targetTemperature * 100 else 0
  (e.time, error, totalEnergy)

/-- `collectSamples()` (lines 241-269): throttle to one collection per
0.1 simulated seconds, append the per-particle speeds and energies at the
tail of the buffers, splice the `N` entries at the front (the oldest)
past `MAX_SAMPLES`, append one `tempRecordOf` record and shift the front
(oldest) record past `MAX_HISTORY`. -/
def collectSamples (e : Engine) : Engine :=
  if e.time - e.lastSampleTime < 1 / 10 then e else
  let speeds := e.collectedSpeeds ++ e.particles.map fun q => q.speed
  let energies := e.collectedEnergies ++ e.particles.map fun q => q.energy
  let speeds2 := if MAX_SAMPLES < speeds.length then speeds.drop e.params.N else speeds
  let energies2 := if MAX_SAMPLES < speeds.length then energies.drop e.params.N else energies
  let hist := e.tempHistory ++ [tempRecordOf e]
  let hist2 := if MAX_HISTORY < hist.length then hist.drop 1 else hist
  { e with lastSampleTime := e.time
           collectedSpeeds := speeds2
           collectedEnergies := energies2
           tempHistory := hist2 }

/-- `getStats()` (lines 271-304): instantaneous temperature, ideal-gas
pressure, mean and RMS speed, equilibration flag, and the
phase/progress state machine over elapsed time.  The source computes
phase and progress in one if/else chain; they are written here as two
structurally identical chains. -/
def getStats (o : Oracle) (e : Engine) : SimulationStats :=
  let totalEnergy := (e.particles.map fun q => q.energy).sum
  let temp :=
    if 0 < e.params.N then 2 * totalEnergy / (3 * (e.params.N : ℚ) * e.params.k) else 0
  let pressure := (e.params.N : ℚ) * e.params.k * temp / e.params.L ^ 3
  let speeds := e.particles.map fun q => q.speed
  let meanSpeed := if 0 < e.params.N then speeds.sum / (e.params.N : ℚ) else 0
  let rmsSpeed :=
    if 0 < e.params.N then
      o.sqrtQ ((speeds.foldl (fun a b => a + b * b) 0) / (e.params.N : ℚ))
    else 0
  let phase :=
    if e.time < e.params.equilibriumTime then SimPhase.equilibrating
    else if e.time < e.params.equilibriumTime + e.params.statsDuration then
      SimPhase.collecting
    else SimPhase.finished
  let progress :=
    if e.time < e.params.equilibriumTime then
      (if 0 < e.params.equilibriumTime then e.time / e.params.equilibriumTime else 1)
    else if e.time < e.params.equilibriumTime + e.params.statsDuration then
      (if 0 < e.params.statsDuration then
        (e.time - e.params.equilibriumTime) / e.params.statsDuration else 1)
    else 1
  { time := e.time
    temperature := temp
    pressure := pressure
    meanSpeed := meanSpeed
    rmsSpeed := rmsSpeed
    isEquilibrated := decide (e.params.equilibriumTime ≤ e.time)
    progress := progress
    phase := phase }

/-- Rank of a phase along the forward direction
equilibrating to collecting to finished. -/
def phaseIdx : SimPhase → ℕ
  | SimPhase.idle => 0
  | SimPhase.equilibrating => 0
  | SimPhase.collecting => 1
  | SimPhase.finished => 2

/-- The sample source chosen by `getHistogramData` (lines 307-308). -/
def sampleSpeeds (useAccumulated : Bool) (e : Engine) : List ℚ :=
  if useAccumulated then e.collectedSpeeds else e.particles.map fun q => q.speed

/-- The energy sample source chosen by `getHistogramData` (line 308). -/
def sampleEnergies (useAccumulated : Bool) (e : Engine) : List ℚ :=
  if useAccumulated then e.collectedEnergies else e.particles.map fun q => q.energy

/-- Increment the count of bin `i`, the translation of
`this.speedBins[idx].count++` (lines 323 and 333). -/
def bumpBin (bins : List HistogramBin) (i : ℕ) : List HistogramBin :=
  match bins[i]? with
  | some b => bins.set i { b with count := b.count + 1 }
  | none => bins

/-- Route one sample into the bin list (lines 320-324 and 330-334):
integer division by the bin width, clamp overflow into the last bin,
drop negative indices. -/
def applySample (w : ℚ) (bins : List HistogramBin) (v : ℚ) : List HistogramBin :=
  let idx0 : ℤ := Int.floor (v / w)
  let idx : ℤ := if (bins.length : ℤ) ≤ idx0 then (bins.length : ℤ) - 1 else idx0
  if 0 ≤ idx then bumpBin bins idx.toNat else bins

/-- The histogram filling loop over one sample source. -/
def fillBins (w : ℚ) (bins : List HistogramBin) (samples : List ℚ) :
    List HistogramBin :=
  samples.foldl (applySample w) bins

/-- Total count over a bin list. -/
def countSum (bins : List HistogramBin) : ℕ := (bins.map fun b => b.count).sum

/-- `getHistogramData(useAccumulated)` (lines 306-366).  The source method
mutates `this.speedBins` and `this.energyBins` in place; the embedding
returns the `ChartData` together with the engine state after the call. -/
def getHistogramData (o : Oracle) (useAccumulated : Bool) (e : Engine) :
    ChartData × Engine :=
  let sourceSpeeds := sampleSpeeds useAccumulated e
  let sourceEnergies := sampleEnergies useAccumulated e
  let sampleCount := sourceSpeeds.length
  if sampleCount = 0 then
    ({ speed := [], energy := [], energyLog := [], tempHistory := [] }, e)
  else
    let sBins0 := e.speedBins.map fun b => { b with count := 0, probability := 0 }
    let eBins0 := e.energyBins.map fun b => { b with count := 0, probability := 0 }
    let sBins1 :=
      if 0 < sBins0.length then
        fillBins ((sBins0.headD default).binEnd - (sBins0.headD default).binStart)
          sBins0 sourceSpeeds
      else sBins0
    let eBins1 :=
      if 0 < eBins0.length then
        fillBins ((eBins0.headD default).binEnd - (eBins0.headD default).binStart)
          eBins0 sourceEnergies
      else eBins0
    let speedBinSize :=
      if 0 < sBins1.length then
        (sBins1.headD default).binEnd - (sBins1.headD default).binStart
      else 1
    let energyBinSize :=
      if 0 < eBins1.length then
        (eBins1.headD default).binEnd - (eBins1.headD default).binStart
      else 1
    let sBins2 := sBins1.map fun b =>
      { b with probability := (b.count : ℚ) / ((sampleCount : ℚ) * speedBinSize) }
    let eBins2 := eBins1.map fun b =>
      { b with probability := (b.count : ℚ) / ((sampleCount : ℚ) * energyBinSize) }
    let energyLog :=
      (eBins2.filter fun b => 1 / 1000 < b.probability).map fun b =>
        ((b.binStart + b.binEnd) / 2,
          o.logQ b.probability,
          o.logQ (if b.theoretical = 0 then 1 / 10000 else b.theoretical))
    ({ speed := sBins2, energy := eBins2, energyLog := energyLog,
       tempHistory := e.tempHistory },
     { e with speedBins := sBins2, energyBins := eBins2 })

/-- The kinetic energy `(1/2) m |v|^2` of a particle, computed from its
velocity components. -/
def kinEnergy (m : ℚ) (pt : Particle) : ℚ :=
  1 / 2 * m * (pt.vx * pt.vx + pt.vy * pt.vy + pt.vz * pt.vz)

/-- Engine states reachable by construction followed by any sequence of
`step()` and `collectSamples()` calls; each call may observe fresh
random draws, hence the fresh oracle on every step. -/
inductive Reachable : Engine → Prop
  | init : ∀ (p : SimulationParams) (o : Oracle), Reachable (initEngine p o)
  | step : ∀ (e : Engine) (o : Oracle), Reachable e → Reachable (step o e)
  | collect : ∀ (e : Engine), Reachable e → Reachable (collectSamples e)

/-! Concrete parameter sets, oracles and states used to instantiate the
theorems below.  Every oracle is exact (`sqrtQ q * sqrtQ q = q`) at each
perfect square it is actually queried at in the run that uses it. -/

/-- Base oracle: uniform draws fixed at 1/2, all other primitives zero. -/
def zeroOracle : Oracle :=
  { rand := fun _ => 1 / 2
    gauss := fun _ => (0, 0, 0)
    sqrtQ := fun _ => 0
    logQ := fun _ => 0
    mbSpeed := fun _ => 0
    mbEnergy := fun _ => 0 }

/-- Two particles in a 10-sided box of radius-1 spheres, unit mass and
Boltzmann constant, `dt = 1`, thermostat off. -/
def c1Params : SimulationParams :=
  { L := 10, N := 2, r := 1, m := 1, k := 1, dt := 1, nu := 0,
    equilibriumTime := 1, statsDuration := 1 }

/-- Square root values queried along the two-particle containment run:
exact on the perfect squares 4, 25 and 9/4. -/
def c1SqrtQ : ℚ → ℚ := fun q =>
  if q = 4 then 2 else if q = 25 then 5 else if q = 9 / 4 then 3 / 2 else 0

/-- Construction oracle for the containment run: zero jitter, initial
velocities (0,0,-2) and (0,0,-5). -/
def c1InitO : Oracle :=
  { zeroOracle with
    gauss := fun c => if c = 0 then (0, 0, -2) else (0, 0, -5)
    sqrtQ := c1SqrtQ }

/-- Step oracle for the containment run (the thermostat fires with
probability `nu * dt = 0`, so the gaussian stream is never read). -/
def c1StepO : Oracle := { zeroOracle with sqrtQ := c1SqrtQ }

/-- Parameters for the pair-collision energy witness: radius-3 spheres of
mass 2. -/
def c2Params : SimulationParams :=
  { L := 100, N := 2, r := 3, m := 2, k := 1, dt := 1, nu := 0,
    equilibriumTime := 1, statsDuration := 1 }

/-- Oracle exact at the only queried square, 25. -/
def c2O : Oracle := { zeroOracle with sqrtQ := fun q => if q = 25 then 5 else 0 }

/-- A particle at (3,4,0) moving straight at the origin with speed 5. -/
def c2P1 : Particle :=
  { x := 3, y := 4, z := 0, vx := -3, vy := -4, vz := 0, speed := 5, energy := 25 }

/-- A particle at rest at the origin. -/
def c2P2 : Particle :=
  { x := 0, y := 0, z := 0, vx := 0, vy := 0, vz := 0, speed := 0, energy := 0 }

/-- One radius-1 particle in a 10-sided box, unit mass and Boltzmann
constant, `dt = 1`, thermostat off. -/
def c7Params : SimulationParams :=
  { L := 10, N := 1, r := 1, m := 1, k := 1, dt := 1, nu := 0,
    equilibriumTime := 1, statsDuration := 1 }

/-- Construction oracle for the one-particle state: initial velocity
(1,0,0); exact on the only queried square, 1. -/
def c7O : Oracle :=
  { zeroOracle with
    gauss := fun _ => (1, 0, 0)
    sqrtQ := fun q => if q = 1 then 1 else 0 }

/-- Oracle whose uniform draw 19/20 produces a jitter of 0.18 times the
grid spacing. -/
def c8O : Oracle := { zeroOracle with rand := fun _ => 19 / 20 }

/-- Oracle exact at the only queried square, 9/4. -/
def c9O : Oracle := { zeroOracle with sqrtQ := fun q => if q = 9 / 4 then 3 / 2 else 0 }

/-- A resting particle at the origin. -/
def c9P1 : Particle :=
  { x := 0, y := 0, z := 0, vx := 0, vy := 0, vz := 0, speed := 0, energy := 0 }

/-- A resting particle overlapping `c9P1`: centre distance 3/2 < 2r = 2. -/
def c9P2 : Particle :=
  { x := 3 / 2, y := 0, z := 0, vx := 0, vy := 0, vz := 0, speed := 0, energy := 0 }

/-- A particle at the origin moving away from `c9P2` along the x axis. -/
def c9W1 : Particle :=
  { x := 0, y := 0, z := 0, vx := -1, vy := 0, vz := 0, speed := 1, energy := 1 / 2 }

/-- Engine state holding two accumulated samples per source and the fixed
30-bin unit-width layout. -/
def c4Engine : Engine :=
  { params := c1Params
    particles := []
    time := 0
    targetTemperature := 1
    collectedSpeeds := [1 / 2, 100]
    collectedEnergies := [0, 3]
    tempHistory := []
    speedBins := mkBins 30 1 fun _ => 0
    energyBins := mkBins 30 1 fun _ => 0
    lastSampleTime := -1 }

/-- The state of `c4Engine` after one completed accumulated-view
getHistogramData call: its bins carry the nonzero counts written by that
call, so a further call on it exercises the repeat-query path. -/
def c4Engine2 : Engine := (getHistogramData zeroOracle true c4Engine).2

/-- Zero-particle parameter set. -/
def c10Params : SimulationParams :=
  { L := 10, N := 0, r := 1, m := 1, k := 1, dt := 1, nu := 0,
    equilibriumTime := 1, statsDuration := 1 }

end MD

namespace MD

theorem mapIdxFrom_length {α β : Type} (f : ℕ → α → β) :
    ∀ (s : ℕ) (l : List α), (mapIdxFrom f s l).length = l.length
  | _, [] => rfl
  | s, _ :: as => by simp [mapIdxFrom, mapIdxFrom_length f (s + 1) as]

theorem mapIdxFrom_get {α β : Type} (f : ℕ → α → β) :
    ∀ (s : ℕ) (l : List α) (c : ℕ) (h : c < (mapIdxFrom f s l).length),
      (mapIdxFrom f s l).get ⟨c, h⟩
        = f (s + c) (l.get ⟨c, by rw [← mapIdxFrom_length f s l]; exact h⟩)
  | s, [], c, h => by simp [mapIdxFrom] at h
  | s, a :: as, 0, h => by simp [mapIdxFrom]
  | s, a :: as, c + 1, h => by
    have hrec := mapIdxFrom_get f (s + 1) as c (by
      simpa [mapIdxFrom] using h)
    simp only [mapIdxFrom, List.get] at hrec ⊢
    rw [hrec]
    have : s + 1 + c = s + (c + 1) := by omega
    rw [this]

theorem perSideSearch_le (N : ℕ) :
    ∀ (fuel n : ℕ), N ≤ (n + fuel) ^ 3 → N ≤ perSideSearch N n fuel ^ 3
  | 0, n, h => by simpa [perSideSearch] using h
  | fuel + 1, n, h => by
    unfold perSideSearch
    split_ifs with h1
    · exact h1
    · refine perSideSearch_le N fuel (n + 1) ?_
      have : n + 1 + fuel = n + (fuel + 1) := by omega
      rw [this]; exact h

theorem perSideSearch_min (N : ℕ) :
    ∀ (fuel n : ℕ), (∀ m, m < n → m ^ 3 < N) →
      ∀ m, m < perSideSearch N n fuel → m ^ 3 < N
  | 0, n, hlow => by simpa [perSideSearch] using hlow
  | fuel + 1, n, hlow => by
    unfold perSideSearch
    split_ifs with h1
    · exact hlow
    · refine perSideSearch_min N fuel (n + 1) ?_
      intro m hm
      rcases Nat.lt_succ_iff_lt_or_eq.mp hm with h | h
      · exact hlow m h
      · subst h; omega

theorem perSide_le_cube (N : ℕ) : N ≤ perSide N ^ 3 :=
  perSideSearch_le N N 0 (by simpa using Nat.le_self_pow (by norm_num) N)

theorem perSide_min (N : ℕ) : ∀ m, m < perSide N → m ^ 3 < N :=
  perSideSearch_min N N 0 (fun m hm => absurd hm (Nat.not_lt_zero m))

theorem cells_length (n : ℕ) : (cells n).length = n ^ 3 := by
  simp [cells, Function.comp_def]
  ring

theorem wallAxis_mem (r Lr x v : ℚ) (h : r ≤ Lr) :
    r ≤ (wallAxis r Lr x v).1 ∧ (wallAxis r Lr x v).1 ≤ Lr := by
  unfold wallAxis
  split_ifs with h1 h2 <;> constructor <;> simp <;> linarith

theorem collidePairAt_length (p : SimulationParams) (o : Oracle)
    (arr : List Particle) (ij : ℕ × ℕ) :
    (collidePairAt p o arr ij).length = arr.length := by
  unfold collidePairAt
  rcases h1 : arr[ij.1]? with _ | p1 <;> rcases h2 : arr[ij.2]? with _ | p2 <;>
    simp [List.length_set]

theorem foldl_collide_length (p : SimulationParams) (o : Oracle)
    (l : List (ℕ × ℕ)) :
    ∀ arr, (l.foldl (collidePairAt p o) arr).length = arr.length := by
  induction l with
  | nil => intro arr; rfl
  | cons a t ih => intro arr; rw [List.foldl_cons, ih, collidePairAt_length]

theorem collideAll_length (p : SimulationParams) (o : Oracle)
    (ps : List Particle) : (collideAll p o ps).length = ps.length :=
  foldl_collide_length p o (pairList ps.length) ps

theorem step_time (o : Oracle) (e : Engine) :
    (step o e).time = e.time + e.params.dt := rfl

theorem step_params (o : Oracle) (e : Engine) : (step o e).params = e.params := rfl

theorem step_particles_length (o : Oracle) (e : Engine) :
    (step o e).particles.length = e.particles.length := by
  simp [step, moveWallStage, mapIdxFrom_length, collideAll_length]

end MD

namespace MD

theorem bumpBin_length (bins : List HistogramBin) (i : ℕ) :
    (bumpBin bins i).length = bins.length := by
  unfold bumpBin
  rcases h : bins[i]? with _ | b <;> simp [List.length_set]

theorem countSum_bumpBin : ∀ (bins : List HistogramBin) (i : ℕ), i < bins.length →
    countSum (bumpBin bins i) = countSum bins + 1
  | [], i, h => absurd h (by simp)
  | b :: bs, 0, _ => by
    simp [bumpBin, countSum]
    omega
  | b :: bs, i + 1, h => by
    have hi : i < bs.length := by simpa using h
    have ih := countSum_bumpBin bs i hi
    obtain ⟨q, hq⟩ : ∃ q, bs[i]? = some q :=
      ⟨bs.get ⟨i, hi⟩, by simp [List.getElem?_eq_getElem hi]⟩
    unfold bumpBin at ih ⊢
    simp only [List.getElem?_cons_succ, hq] at ih ⊢
    simp [countSum] at ih ⊢
    omega

theorem applySample_length (w : ℚ) (bins : List HistogramBin) (v : ℚ) :
    (applySample w bins v).length = bins.length := by
  unfold applySample
  dsimp only
  split_ifs <;> simp [bumpBin_length]

theorem countSum_applySample (w : ℚ) (bins : List HistogramBin) (v : ℚ)
    (hw : 0 < w) (hv : 0 ≤ v) (hne : bins ≠ []) :
    countSum (applySample w bins v) = countSum bins + 1 := by
  have hlen : 0 < bins.length := List.length_pos.mpr hne
  have h0 : (0 : ℤ) ≤ Int.floor (v / w) := Int.floor_nonneg.mpr (div_nonneg hv hw.le)
  unfold applySample
  dsimp only
  rcases le_or_lt (bins.length : ℤ) ⌊v / w⌋ with hc | hc
  · rw [if_pos hc, if_pos (by omega : (0 : ℤ) ≤ (bins.length : ℤ) - 1)]
    exact countSum_bumpBin bins _ (by omega)
  · rw [if_neg (not_le.mpr hc), if_pos h0]
    exact countSum_bumpBin bins _ (by omega)

theorem fillBins_length (w : ℚ) : ∀ (samples : List ℚ) (bins : List HistogramBin),
    (fillBins w bins samples).length = bins.length
  | [], _ => rfl
  | v :: vs, bins => by
    show (fillBins w (applySample w bins v) vs).length = bins.length
    rw [fillBins_length w vs _, applySample_length]

theorem countSum_fillBins (w : ℚ) (hw : 0 < w) :
    ∀ (samples : List ℚ) (bins : List HistogramBin), (∀ v ∈ samples, 0 ≤ v) →
      bins ≠ [] →
      countSum (fillBins w bins samples) = countSum bins + samples.length
  | [], bins, _, _ => by simp [fillBins]
  | v :: vs, bins, hnn, hne => by
    show countSum (fillBins w (applySample w bins v) vs) = _
    have hne2 : applySample w bins v ≠ [] := by
      have := applySample_length w bins v
      intro hcon
      rw [hcon] at this
      exact hne (List.length_eq_zero.mp this.symm)
    rw [countSum_fillBins w hw vs _ (fun u hu => hnn u (List.mem_cons_of_mem _ hu)) hne2,
      countSum_applySample w bins v hw (hnn v (List.mem_cons_self _ _)) hne]
    simp
    omega

theorem probSum (n w : ℚ) (hw : w ≠ 0) (hn : n ≠ 0) :
    ∀ (bins : List HistogramBin),
      ((bins.map fun b => { b with probability := (b.count : ℚ) / (n * w) }).map
          fun b => b.probability * w).sum = (countSum bins : ℚ) / n
  | [] => by simp [countSum]
  | b :: bs => by
    simp only [List.map_cons, List.sum_cons, probSum n w hw hn bs, countSum,
      List.map_cons]
    push_cast
    field_simp
    ring

theorem countSum_probMap (bins : List HistogramBin) (g : HistogramBin → ℚ) :
    countSum (bins.map fun b => { b with probability := g b }) = countSum bins := by
  induction bins with
  | nil => rfl
  | cons b bs ih => simp [countSum] at ih ⊢; omega

theorem mkBins_length (n : ℕ) (w : ℚ) (th : ℚ → ℚ) : (mkBins n w th).length = n := by
  unfold mkBins
  rw [List.length_map, List.length_range]

theorem countSum_mkBins (n : ℕ) (w : ℚ) (th : ℚ → ℚ) : countSum (mkBins n w th) = 0 := by
  unfold countSum mkBins
  rw [List.map_map]
  simp [Function.comp_def]

theorem mkBins_headD (n : ℕ) (w : ℚ) (th : ℚ → ℚ) (h : 0 < n) :
    ((mkBins n w th).headD default).binStart = 0 ∧
    ((mkBins n w th).headD default).binEnd = w := by
  cases n with
  | zero => omega
  | succ m => simp [mkBins, List.range_succ_eq_map]

theorem countSum_reset (bins : List HistogramBin) :
    countSum (bins.map fun b => { b with count := 0, probability := 0 }) = 0 := by
  induction bins with
  | nil => rfl
  | cons b bs ih => simpa [countSum] using ih

theorem reset_headD (bins : List HistogramBin) :
    (((bins.map fun b => { b with count := 0, probability := 0 }).headD
        default : HistogramBin)).binStart = (bins.headD default).binStart ∧
    (((bins.map fun b => { b with count := 0, probability := 0 }).headD
        default : HistogramBin)).binEnd = (bins.headD default).binEnd := by
  cases bins <;> simp

theorem probMap_headD (bins : List HistogramBin) (g : HistogramBin → ℚ) :
    (((bins.map fun b => { b with probability := g b }).headD default
        : HistogramBin)).binStart = (bins.headD default).binStart ∧
    (((bins.map fun b => { b with probability := g b }).headD default
        : HistogramBin)).binEnd = (bins.headD default).binEnd := by
  cases bins <;> simp

theorem bumpBin_headD_startEnd (bins : List HistogramBin) (i : ℕ) :
    ((bumpBin bins i).headD default).binStart = (bins.headD default).binStart ∧
    ((bumpBin bins i).headD default).binEnd = (bins.headD default).binEnd := by
  unfold bumpBin
  rcases h : bins[i]? with _ | b
  · simp
  · cases bins with
    | nil => simp at h
    | cons hd tl =>
      cases i with
      | zero => simp at h; subst h; simp
      | succ j => simp

theorem applySample_headD_startEnd (w : ℚ) (bins : List HistogramBin) (v : ℚ) :
    ((applySample w bins v).headD default).binStart = (bins.headD default).binStart ∧
    ((applySample w bins v).headD default).binEnd = (bins.headD default).binEnd := by
  unfold applySample
  dsimp only
  split_ifs <;> first | exact bumpBin_headD_startEnd bins _ | exact ⟨rfl, rfl⟩

theorem fillBins_headD_startEnd (w : ℚ) :
    ∀ (samples : List ℚ) (bins : List HistogramBin),
      ((fillBins w bins samples).headD default).binStart = (bins.headD default).binStart ∧
      ((fillBins w bins samples).headD default).binEnd = (bins.headD default).binEnd
  | [], bins => ⟨rfl, rfl⟩
  | v :: vs, bins => by
    show ((fillBins w (applySample w bins v) vs).headD default).binStart = _ ∧ _
    have h1 := fillBins_headD_startEnd w vs (applySample w bins v)
    have h2 := applySample_headD_startEnd w bins v
    exact ⟨h1.1.trans h2.1, h1.2.trans h2.2⟩

end MD

namespace MD

/-- C3: for every pair of particles passed through the pairwise collision
stage, the component-wise sum of the two velocity vectors is unchanged by
the impulse update: the same impulse is subtracted from particle 1 and
added to particle 2. -/
theorem claim3_momentum_conservation (p : SimulationParams) (o : Oracle)
    (p1 p2 : Particle) :
    (resolvePair p o p1 p2).1.vx + (resolvePair p o p1 p2).2.vx = p1.vx + p2.vx ∧
    (resolvePair p o p1 p2).1.vy + (resolvePair p o p1 p2).2.vy = p1.vy + p2.vy ∧
    (resolvePair p o p1 p2).1.vz + (resolvePair p o p1 p2).2.vz = p1.vz + p2.vz := by
  unfold resolvePair
  dsimp only
  split_ifs <;> refine ⟨?_, ?_, ?_⟩ <;> dsimp only <;> ring

/-- C2: for every pair resolved by the collision stage, the total kinetic
energy (1/2) m |v|^2 of the two particles immediately after the velocity
impulse equals the total immediately before, exactly, provided the square
root used for the contact normal is exact at the squared distance. -/
theorem claim2_energy_conservation (p : SimulationParams) (o : Oracle)
    (p1 p2 : Particle)
    (hsq : o.sqrtQ (distSqOf p1 p2) * o.sqrtQ (distSqOf p1 p2) = distSqOf p1 p2) :
    kinEnergy p.m (resolvePair p o p1 p2).1 + kinEnergy p.m (resolvePair p o p1 p2).2
      = kinEnergy p.m p1 + kinEnergy p.m p2 := by
  unfold distSqOf at hsq
  unfold resolvePair kinEnergy
  dsimp only
  split_ifs with h1 h2 h3 h4 h5 h6
  all_goals try rfl
  all_goals {
    rcases eq_or_ne (o.sqrtQ ((p1.x - p2.x) * (p1.x - p2.x) + (p1.y - p2.y) * (p1.y - p2.y) +
        (p1.z - p2.z) * (p1.z - p2.z))) 0 with h0 | h0
    · rw [h0]
      simp only [div_zero, mul_zero, zero_mul, add_zero, sub_zero]
      try ring
    · have hu : o.sqrtQ ((p1.x - p2.x) * (p1.x - p2.x) + (p1.y - p2.y) * (p1.y - p2.y) +
          (p1.z - p2.z) * (p1.z - p2.z)) *
          (o.sqrtQ ((p1.x - p2.x) * (p1.x - p2.x) + (p1.y - p2.y) * (p1.y - p2.y) +
          (p1.z - p2.z) * (p1.z - p2.z)))⁻¹ = 1 := mul_inv_cancel₀ h0
      simp only [div_eq_mul_inv]
      linear_combination
        (-(p.m * ((p1.vx - p2.vx) * (p1.x - p2.x) + (p1.vy - p2.vy) * (p1.y - p2.y) +
            (p1.vz - p2.vz) * (p1.z - p2.z)) ^ 2 *
          (o.sqrtQ ((p1.x - p2.x) * (p1.x - p2.x) + (p1.y - p2.y) * (p1.y - p2.y) +
            (p1.z - p2.z) * (p1.z - p2.z)))⁻¹ ^ 4)) * hsq +
        (p.m * ((p1.vx - p2.vx) * (p1.x - p2.x) + (p1.vy - p2.vy) * (p1.y - p2.y) +
            (p1.vz - p2.vz) * (p1.z - p2.z)) ^ 2 *
          (o.sqrtQ ((p1.x - p2.x) * (p1.x - p2.x) + (p1.y - p2.y) * (p1.y - p2.y) +
            (p1.z - p2.z) * (p1.z - p2.z)))⁻¹ ^ 2 *
          (o.sqrtQ ((p1.x - p2.x) * (p1.x - p2.x) + (p1.y - p2.y) * (p1.y - p2.y) +
            (p1.z - p2.z) * (p1.z - p2.z)) *
           (o.sqrtQ ((p1.x - p2.x) * (p1.x - p2.x) + (p1.y - p2.y) * (p1.y - p2.y) +
            (p1.z - p2.z) * (p1.z - p2.z)))⁻¹ + 1)) * hu
  }

/-- C2 witness: a head-on resolved pair with exact square root 5 at the
squared distance 25; both hypotheses hold and the pair kinetic energy is
conserved. -/
theorem claim2_energy_conservation_witness :
    (c2O.sqrtQ (distSqOf c2P1 c2P2) * c2O.sqrtQ (distSqOf c2P1 c2P2)
        = distSqOf c2P1 c2P2) ∧
    kinEnergy c2Params.m (resolvePair c2Params c2O c2P1 c2P2).1 +
        kinEnergy c2Params.m (resolvePair c2Params c2O c2P1 c2P2).2
      = kinEnergy c2Params.m c2P1 + kinEnergy c2Params.m c2P2 :=
  ⟨by norm_num [distSqOf, c2O, c2P1, c2P2, zeroOracle],
   claim2_energy_conservation c2Params c2O c2P1 c2P2
     (by norm_num [distSqOf, c2O, c2P1, c2P2, zeroOracle])⟩

/-- C9 counterexample: an overlapping resting pair has impact speed
exactly zero; the code only skips on a strictly positive impact speed, so
the positional overlap correction still runs and moves particle 1 from
x = 0 to x = -1/4. -/
theorem claim9_counterexample :
    0 ≤ velAlongNormal c9O c9P1 c9P2 ∧
    distSqOf c9P1 c9P2 < 2 * c7Params.r * (2 * c7Params.r) ∧
    (resolvePair c7Params c9O c9P1 c9P2).1.x ≠ c9P1.x := by
  refine ⟨?_, ?_, ?_⟩ <;>
    norm_num [velAlongNormal, distSqOf, resolvePair, c9O, c9P1, c9P2, c7Params, zeroOracle]

/-- C9 amended: a pair with non-negative impact speed never has its
velocities modified, and a pair with strictly positive impact speed is
skipped entirely (velocities and positions both untouched); at exactly
zero the positional overlap correction may still move the particles. -/
theorem claim9_separating_skip (p : SimulationParams) (o : Oracle)
    (p1 p2 : Particle) (h : 0 ≤ velAlongNormal o p1 p2) :
    ((resolvePair p o p1 p2).1.vx = p1.vx ∧ (resolvePair p o p1 p2).1.vy = p1.vy ∧
     (resolvePair p o p1 p2).1.vz = p1.vz ∧ (resolvePair p o p1 p2).2.vx = p2.vx ∧
     (resolvePair p o p1 p2).2.vy = p2.vy ∧ (resolvePair p o p1 p2).2.vz = p2.vz) ∧
    (0 < velAlongNormal o p1 p2 → resolvePair p o p1 p2 = (p1, p2)) := by
  unfold velAlongNormal at h ⊢
  dsimp only at h
  unfold resolvePair
  dsimp only
  split_ifs with h1 h2 h3 h4 h5 h6
  all_goals try exact ⟨⟨rfl, rfl, rfl, rfl, rfl, rfl⟩, fun _ => rfl⟩
  all_goals {
    have hv0 := le_antisymm (not_lt.mp h5) h
    refine ⟨?_, fun hlt => absurd hlt h5⟩
    rw [hv0]
    exact ⟨by ring, by ring, by ring, by ring, by ring, by ring⟩
  }

/-- C9 witness: a strictly separating overlapping pair (impact speed 1)
satisfies the hypothesis and is skipped entirely. -/
theorem claim9_separating_skip_witness :
    0 ≤ velAlongNormal c9O c9W1 c9P2 ∧
    (((resolvePair c7Params c9O c9W1 c9P2).1.vx = c9W1.vx ∧
      (resolvePair c7Params c9O c9W1 c9P2).1.vy = c9W1.vy ∧
      (resolvePair c7Params c9O c9W1 c9P2).1.vz = c9W1.vz ∧
      (resolvePair c7Params c9O c9W1 c9P2).2.vx = c9P2.vx ∧
      (resolvePair c7Params c9O c9W1 c9P2).2.vy = c9P2.vy ∧
      (resolvePair c7Params c9O c9W1 c9P2).2.vz = c9P2.vz) ∧
     (0 < velAlongNormal c9O c9W1 c9P2 →
       resolvePair c7Params c9O c9W1 c9P2 = (c9W1, c9P2))) :=
  ⟨by norm_num [velAlongNormal, c9O, c9W1, c9P2, zeroOracle],
   claim9_separating_skip c7Params c9O c9W1 c9P2
     (by norm_num [velAlongNormal, c9O, c9W1, c9P2, zeroOracle])⟩

end MD

namespace MD

/-- C1 counterexample: a state reachable by construction plus one step in
which the collision-stage overlap correction pushes particle 1 to
z = 3/4, strictly below r = 1, so a coordinate leaves [r, L-r] after a
completed step. -/
theorem claim1_counterexample :
    ((step c1StepO (initEngine c1Params c1InitO)).particles.map fun q => q.z)
      = [3 / 4, 11 / 4] ∧ ¬ (c1Params.r ≤ 3 / 4) := by
  constructor
  · norm_num [initEngine, initParticles, mapIdxFrom, mkParticle, cells, perSide,
      perSideSearch, spacingOf, jitterOf, clampQ, c1Params, c1InitO, c1StepO, c1SqrtQ,
      zeroOracle, List.range_succ, step, moveWallStage, moveWall, wallAxis, collideAll,
      pairList, resolvePair, collidePairAt]
  · norm_num [c1Params]

/-- C1 amended: containment holds after the move-and-wall-reflection
sub-stage of step whenever 2r ≤ L; the subsequent overlap correction of
the collision stage can move a coordinate outside [r, L-r]. -/
theorem claim1_wall_containment (p : SimulationParams) (o : Oracle)
    (pColl σ : ℚ) (ps : List Particle) (h2r : 2 * p.r ≤ p.L) :
    ∀ c : ℕ, c < (moveWallStage p o pColl σ ps).length →
      p.r ≤ ((moveWallStage p o pColl σ ps).getD c default).x ∧
      ((moveWallStage p o pColl σ ps).getD c default).x ≤ p.L - p.r ∧
      p.r ≤ ((moveWallStage p o pColl σ ps).getD c default).y ∧
      ((moveWallStage p o pColl σ ps).getD c default).y ≤ p.L - p.r ∧
      p.r ≤ ((moveWallStage p o pColl σ ps).getD c default).z ∧
      ((moveWallStage p o pColl σ ps).getD c default).z ≤ p.L - p.r := by
  intro c hc
  have hrL : p.r ≤ p.L - p.r := by linarith
  rw [List.getD_eq_get _ _ hc]
  unfold moveWallStage
  rw [mapIdxFrom_get]
  unfold moveWall
  dsimp only
  split_ifs
  all_goals
    exact ⟨(wallAxis_mem _ _ _ _ hrL).1, (wallAxis_mem _ _ _ _ hrL).2,
      (wallAxis_mem _ _ _ _ hrL).1, (wallAxis_mem _ _ _ _ hrL).2,
      (wallAxis_mem _ _ _ _ hrL).1, (wallAxis_mem _ _ _ _ hrL).2⟩

/-- C1 witness: one resting particle inside a box with 2r ≤ L stays inside
[r, L-r] through the move-and-wall sub-stage. -/
theorem claim1_wall_containment_witness :
    2 * c1Params.r ≤ c1Params.L ∧
    (c1Params.r ≤ ((moveWallStage c1Params zeroOracle 0 0 [c9P1]).getD 0 default).x ∧
     ((moveWallStage c1Params zeroOracle 0 0 [c9P1]).getD 0 default).x ≤ c1Params.L - c1Params.r ∧
     c1Params.r ≤ ((moveWallStage c1Params zeroOracle 0 0 [c9P1]).getD 0 default).y ∧
     ((moveWallStage c1Params zeroOracle 0 0 [c9P1]).getD 0 default).y ≤ c1Params.L - c1Params.r ∧
     c1Params.r ≤ ((moveWallStage c1Params zeroOracle 0 0 [c9P1]).getD 0 default).z ∧
     ((moveWallStage c1Params zeroOracle 0 0 [c9P1]).getD 0 default).z ≤ c1Params.L - c1Params.r) :=
  ⟨by norm_num [c1Params],
   claim1_wall_containment c1Params zeroOracle 0 0 [c9P1] (by norm_num [c1Params]) 0
     (by simp [moveWallStage, mapIdxFrom])⟩

/-- C5: the phase reported by getStats is equilibrating exactly below the
equilibration time, collecting exactly inside the statistics window,
finished exactly from its end on; step advances time by dt, and the phase
rank never moves backward as time grows for fixed positive durations. -/
theorem claim5_phase_monotone (o : Oracle) (e : Engine)
    (heq : 0 < e.params.equilibriumTime) (hsd : 0 < e.params.statsDuration) :
    ((getStats o e).phase = SimPhase.equilibrating ↔
      e.time < e.params.equilibriumTime) ∧
    ((getStats o e).phase = SimPhase.collecting ↔
      (e.params.equilibriumTime ≤ e.time ∧
        e.time < e.params.equilibriumTime + e.params.statsDuration)) ∧
    ((getStats o e).phase = SimPhase.finished ↔
      e.params.equilibriumTime + e.params.statsDuration ≤ e.time) ∧
    (∀ o2 : Oracle, (step o2 e).time = e.time + e.params.dt) ∧
    (∀ e2 : Engine, e2.params = e.params → e.time ≤ e2.time →
      phaseIdx (getStats o e).phase ≤ phaseIdx (getStats o e2).phase) := by
  refine ⟨?_, ?_, ?_, fun o2 => rfl, ?_⟩
  · unfold getStats
    dsimp only
    split_ifs with ha hb
    · simp [ha]
    · simp [ha]
    · simp [ha]
  · unfold getStats
    dsimp only
    split_ifs with ha hb
    · simp [not_le.mpr ha]
    · simp [not_lt.mp ha, hb]
    · simp [hb]
  · unfold getStats
    dsimp only
    split_ifs with ha hb
    · have hx : ¬ (e.params.equilibriumTime + e.params.statsDuration ≤ e.time) := by
        linarith
      simp [hx]
    · simp [not_le.mpr hb]
    · simp [not_lt.mp hb]
  · intro e2 hp ht
    unfold getStats
    dsimp only
    rw [hp]
    split_ifs <;> simp [phaseIdx] <;> linarith

/-- C5 witness: a freshly constructed engine with unit durations is in the
equilibrating phase. -/
theorem claim5_phase_monotone_witness :
    (0 : ℚ) < (initEngine c1Params c1InitO).params.equilibriumTime ∧
    (getStats zeroOracle (initEngine c1Params c1InitO)).phase = SimPhase.equilibrating :=
  ⟨by norm_num [initEngine, c1Params],
   (claim5_phase_monotone zeroOracle (initEngine c1Params c1InitO)
      (by norm_num [initEngine, c1Params])
      (by norm_num [initEngine, c1Params])).1.mpr
     (by norm_num [initEngine, c1Params])⟩

/-- C10: constructing with N = 0 yields an empty particle list and the
fallback target temperature 300, while getStats reports zero temperature,
mean speed and RMS speed, and getHistogramData false returns the all-empty
chart structure; every one of these calls is a total function. -/
theorem claim10_zero_particles (p : SimulationParams) (o o2 : Oracle) (h : p.N = 0) :
    (initEngine p o).particles = [] ∧
    (initEngine p o).targetTemperature = 300 ∧
    (getStats o2 (initEngine p o)).temperature = 0 ∧
    (getStats o2 (initEngine p o)).meanSpeed = 0 ∧
    (getStats o2 (initEngine p o)).rmsSpeed = 0 ∧
    (getHistogramData o2 false (initEngine p o)).1
      = { speed := [], energy := [], energyLog := [], tempHistory := [] } := by
  have hp : (initEngine p o).particles = [] := by
    unfold initEngine initParticles
    dsimp only
    rw [h]
    rfl
  have hN : ¬ (0 < p.N) := by omega
  refine ⟨hp, ?_, ?_, ?_, ?_, ?_⟩
  · unfold initEngine
    dsimp only
    rw [if_neg (by rw [h]; omega)]
  · unfold getStats
    dsimp only
    rw [if_neg (by exact hN)]
  · unfold getStats
    dsimp only
    rw [if_neg (by exact hN)]
  · unfold getStats
    dsimp only
    rw [if_neg (by exact hN)]
  · unfold getHistogramData
    rw [if_pos]
    unfold sampleSpeeds
    rw [hp]
    rfl

/-- C10 witness: the zero-particle parameter set instantiates every
conclusion. -/
theorem claim10_zero_particles_witness :
    (initEngine c10Params zeroOracle).particles = [] ∧
    (initEngine c10Params zeroOracle).targetTemperature = 300 ∧
    (getStats zeroOracle (initEngine c10Params zeroOracle)).temperature = 0 ∧
    (getStats zeroOracle (initEngine c10Params zeroOracle)).meanSpeed = 0 ∧
    (getStats zeroOracle (initEngine c10Params zeroOracle)).rmsSpeed = 0 ∧
    (getHistogramData zeroOracle false (initEngine c10Params zeroOracle)).1
      = { speed := [], energy := [], energyLog := [], tempHistory := [] } :=
  claim10_zero_particles c10Params zeroOracle zeroOracle rfl

end MD

namespace MD

theorem hist_counts (o : Oracle) (useAcc : Bool) (e : Engine) (ws we : ℚ)
    (hsLen : e.speedBins.length = 30) (heLen : e.energyBins.length = 30)
    (hsW : (e.speedBins.headD default).binEnd
      - (e.speedBins.headD default).binStart = ws)
    (heW : (e.energyBins.headD default).binEnd
      - (e.energyBins.headD default).binStart = we)
    (hws : 0 < ws) (hwe : 0 < we)
    (hne : sampleSpeeds useAcc e ≠ [])
    (hnnS : ∀ v ∈ sampleSpeeds useAcc e, 0 ≤ v)
    (hnnE : ∀ v ∈ sampleEnergies useAcc e, 0 ≤ v)
    (hlen : (sampleEnergies useAcc e).length = (sampleSpeeds useAcc e).length) :
    countSum (getHistogramData o useAcc e).1.speed = (sampleSpeeds useAcc e).length ∧
    (((getHistogramData o useAcc e).1.speed).map fun b => b.probability * ws).sum = 1 ∧
    countSum (getHistogramData o useAcc e).1.energy = (sampleSpeeds useAcc e).length ∧
    (((getHistogramData o useAcc e).1.energy).map fun b => b.probability * we).sum = 1 ∧
    (getHistogramData o useAcc e).2.speedBins = (getHistogramData o useAcc e).1.speed ∧
    (getHistogramData o useAcc e).2.energyBins = (getHistogramData o useAcc e).1.energy := by
  have hn0 : ¬ ((sampleSpeeds useAcc e).length = 0) := by
    simpa [List.length_eq_zero] using hne
  have hcast : ((sampleSpeeds useAcc e).length : ℚ) ≠ 0 := Nat.cast_ne_zero.mpr hn0
  have h30 : (0 : ℕ) < 30 := by norm_num
  have hrs := reset_headD e.speedBins
  have hre := reset_headD e.energyBins
  have hneS : (e.speedBins.map fun b => { b with count := 0, probability := 0 }) ≠ [] := by
    intro hcon
    have hl := congrArg List.length hcon
    rw [List.length_map, hsLen] at hl
    simp at hl
  have hneE : (e.energyBins.map fun b => { b with count := 0, probability := 0 }) ≠ [] := by
    intro hcon
    have hl := congrArg List.length hcon
    rw [List.length_map, heLen] at hl
    simp at hl
  have hcs : countSum (fillBins ws
      (e.speedBins.map fun b => { b with count := 0, probability := 0 })
      (sampleSpeeds useAcc e)) = (sampleSpeeds useAcc e).length := by
    rw [countSum_fillBins ws hws _ _ hnnS hneS, countSum_reset]
    omega
  have hce : countSum (fillBins we
      (e.energyBins.map fun b => { b with count := 0, probability := 0 })
      (sampleEnergies useAcc e)) = (sampleSpeeds useAcc e).length := by
    rw [countSum_fillBins we hwe _ _ hnnE hneE, countSum_reset, hlen]
    omega
  unfold getHistogramData
  dsimp only
  rw [if_neg hn0]
  simp only [List.length_map, hsLen, heLen, if_pos h30, hrs.1, hrs.2, hre.1, hre.2,
    hsW, heW, fillBins_length,
    (fillBins_headD_startEnd ws (sampleSpeeds useAcc e)
      (e.speedBins.map fun b => { b with count := 0, probability := 0 })).1,
    (fillBins_headD_startEnd ws (sampleSpeeds useAcc e)
      (e.speedBins.map fun b => { b with count := 0, probability := 0 })).2,
    (fillBins_headD_startEnd we (sampleEnergies useAcc e)
      (e.energyBins.map fun b => { b with count := 0, probability := 0 })).1,
    (fillBins_headD_startEnd we (sampleEnergies useAcc e)
      (e.energyBins.map fun b => { b with count := 0, probability := 0 })).2]
  refine ⟨?_, ?_, ?_, ?_, by trivial, by trivial⟩
  · simp only [countSum_probMap]
    exact hcs
  · rw [probSum ((sampleSpeeds useAcc e).length : ℚ) ws (ne_of_gt hws) hcast, hcs]
    exact div_self hcast
  · simp only [countSum_probMap]
    exact hce
  · rw [probSum ((sampleSpeeds useAcc e).length : ℚ) we (ne_of_gt hwe) hcast, hce]
    exact div_self hcast

end MD

namespace MD

theorem hist_frame (o : Oracle) (useAcc : Bool) (e : Engine) :
    (getHistogramData o useAcc e).2.params = e.params ∧
    (getHistogramData o useAcc e).2.particles = e.particles ∧
    (getHistogramData o useAcc e).2.time = e.time ∧
    (getHistogramData o useAcc e).2.targetTemperature = e.targetTemperature ∧
    (getHistogramData o useAcc e).2.collectedSpeeds = e.collectedSpeeds ∧
    (getHistogramData o useAcc e).2.collectedEnergies = e.collectedEnergies ∧
    (getHistogramData o useAcc e).2.tempHistory = e.tempHistory ∧
    (getHistogramData o useAcc e).2.lastSampleTime = e.lastSampleTime := by
  unfold getHistogramData
  dsimp only
  split_ifs <;> exact ⟨rfl, rfl, rfl, rfl, rfl, rfl, rfl, rfl⟩

theorem hist_bins_length (o : Oracle) (useAcc : Bool) (e : Engine) :
    (getHistogramData o useAcc e).2.speedBins.length = e.speedBins.length ∧
    (getHistogramData o useAcc e).2.energyBins.length = e.energyBins.length := by
  unfold getHistogramData
  dsimp only
  split_ifs <;> refine ⟨?_, ?_⟩ <;> simp only [List.length_map, fillBins_length]

theorem hist_bins_head (o : Oracle) (useAcc : Bool) (e : Engine) :
    (((getHistogramData o useAcc e).2.speedBins.headD default).binStart
        = (e.speedBins.headD default).binStart ∧
     ((getHistogramData o useAcc e).2.speedBins.headD default).binEnd
        = (e.speedBins.headD default).binEnd) ∧
    (((getHistogramData o useAcc e).2.energyBins.headD default).binStart
        = (e.energyBins.headD default).binStart ∧
     ((getHistogramData o useAcc e).2.energyBins.headD default).binEnd
        = (e.energyBins.headD default).binEnd) := by
  unfold getHistogramData
  dsimp only
  split_ifs with h h2 h3 <;>
    constructor <;>
    constructor <;>
    simp only [(probMap_headD _ _).1, (probMap_headD _ _).2,
      (fillBins_headD_startEnd _ _ _).1, (fillBins_headD_startEnd _ _ _).2,
      (reset_headD _).1, (reset_headD _).2]

/-- C4: on every getHistogramData call whose engine carries the 30 fixed
equal-width bins of the initialization layout (their stored counts and
probabilities are arbitrary: the call resets them before filling, so this
covers repeat calls on already-queried state) and whose chosen sample
source is non-empty with only non-negative samples, every sample lands in
exactly one bin (overflow clamped into the last bin), so the bin counts
total the sample count, and the probability densities integrate to
exactly 1 over the fixed bin width, for the speed bins and likewise for
the energy bins. -/
theorem claim4_histogram_normalization (o : Oracle) (useAcc : Bool) (e : Engine)
    (ws we : ℚ)
    (hsLen : e.speedBins.length = 30) (heLen : e.energyBins.length = 30)
    (hsW : (e.speedBins.headD default).binEnd
      - (e.speedBins.headD default).binStart = ws)
    (heW : (e.energyBins.headD default).binEnd
      - (e.energyBins.headD default).binStart = we)
    (hws : 0 < ws) (hwe : 0 < we)
    (hne : sampleSpeeds useAcc e ≠ [])
    (hnnS : ∀ v ∈ sampleSpeeds useAcc e, 0 ≤ v)
    (hnnE : ∀ v ∈ sampleEnergies useAcc e, 0 ≤ v)
    (hlen : (sampleEnergies useAcc e).length = (sampleSpeeds useAcc e).length) :
    countSum (getHistogramData o useAcc e).1.speed = (sampleSpeeds useAcc e).length ∧
    (((getHistogramData o useAcc e).1.speed).map fun b => b.probability * ws).sum = 1 ∧
    countSum (getHistogramData o useAcc e).1.energy = (sampleSpeeds useAcc e).length ∧
    (((getHistogramData o useAcc e).1.energy).map fun b => b.probability * we).sum = 1 := by
  obtain ⟨h1, h2, h3, h4, _, _⟩ :=
    hist_counts o useAcc e ws we hsLen heLen hsW heW hws hwe hne hnnS hnnE hlen
  exact ⟨h1, h2, h3, h4⟩

/-- C4 witness: a repeat call.  `c4Engine2` is the engine state left by a
previous accumulated-view getHistogramData call (its bins already hold
nonzero counts); querying it again still counts both speed samples 1/2
and 100 (the latter clamped into the last bin) and both energy samples 0
and 3 exactly once, and both densities sum to exactly 1. -/
theorem claim4_histogram_normalization_witness :
    countSum (getHistogramData zeroOracle true c4Engine2).1.speed
        = (sampleSpeeds true c4Engine2).length ∧
    (((getHistogramData zeroOracle true c4Engine2).1.speed).map
        fun b => b.probability * 1).sum = 1 ∧
    countSum (getHistogramData zeroOracle true c4Engine2).1.energy
        = (sampleSpeeds true c4Engine2).length ∧
    (((getHistogramData zeroOracle true c4Engine2).1.energy).map
        fun b => b.probability * 1).sum = 1 :=
  claim4_histogram_normalization zeroOracle true c4Engine2 1 1
    (by
      show (getHistogramData zeroOracle true c4Engine).2.speedBins.length = 30
      rw [(hist_bins_length zeroOracle true c4Engine).1]
      show (mkBins 30 1 fun _ => 0).length = 30
      exact mkBins_length 30 1 _)
    (by
      show (getHistogramData zeroOracle true c4Engine).2.energyBins.length = 30
      rw [(hist_bins_length zeroOracle true c4Engine).2]
      show (mkBins 30 1 fun _ => 0).length = 30
      exact mkBins_length 30 1 _)
    (by
      show ((getHistogramData zeroOracle true c4Engine).2.speedBins.headD default).binEnd
        - ((getHistogramData zeroOracle true c4Engine).2.speedBins.headD default).binStart
        = 1
      rw [(hist_bins_head zeroOracle true c4Engine).1.1,
        (hist_bins_head zeroOracle true c4Engine).1.2]
      show ((mkBins 30 1 fun _ => 0).headD default).binEnd
        - ((mkBins 30 1 fun _ => 0).headD default).binStart = 1
      rw [(mkBins_headD 30 1 _ (by norm_num)).1, (mkBins_headD 30 1 _ (by norm_num)).2]
      norm_num)
    (by
      show ((getHistogramData zeroOracle true c4Engine).2.energyBins.headD default).binEnd
        - ((getHistogramData zeroOracle true c4Engine).2.energyBins.headD default).binStart
        = 1
      rw [(hist_bins_head zeroOracle true c4Engine).2.1,
        (hist_bins_head zeroOracle true c4Engine).2.2]
      show ((mkBins 30 1 fun _ => 0).headD default).binEnd
        - ((mkBins 30 1 fun _ => 0).headD default).binStart = 1
      rw [(mkBins_headD 30 1 _ (by norm_num)).1, (mkBins_headD 30 1 _ (by norm_num)).2]
      norm_num)
    (by norm_num) (by norm_num)
    (by
      show sampleSpeeds true (getHistogramData zeroOracle true c4Engine).2 ≠ []
      unfold sampleSpeeds
      rw [if_pos rfl, (hist_frame zeroOracle true c4Engine).2.2.2.2.1]
      simp [c4Engine])
    (by
      intro v hv
      rw [show sampleSpeeds true c4Engine2
          = (getHistogramData zeroOracle true c4Engine).2.collectedSpeeds from rfl,
        (hist_frame zeroOracle true c4Engine).2.2.2.2.1] at hv
      simp [c4Engine] at hv
      rcases hv with h | h <;> norm_num [h])
    (by
      intro v hv
      rw [show sampleEnergies true c4Engine2
          = (getHistogramData zeroOracle true c4Engine).2.collectedEnergies from rfl,
        (hist_frame zeroOracle true c4Engine).2.2.2.2.2.1] at hv
      simp [c4Engine] at hv
      rcases hv with h | h <;> norm_num [h])
    (by
      rw [show sampleEnergies true c4Engine2
          = (getHistogramData zeroOracle true c4Engine).2.collectedEnergies from rfl,
        show sampleSpeeds true c4Engine2
          = (getHistogramData zeroOracle true c4Engine).2.collectedSpeeds from rfl,
        (hist_frame zeroOracle true c4Engine).2.2.2.2.1,
        (hist_frame zeroOracle true c4Engine).2.2.2.2.2.1]
      rfl)

/-- C7 amended: getHistogramData leaves the particles, time, sample
buffers, temperature history and last sample time unchanged (and getStats,
which reads the state without writing, is embedded as a pure function);
only the speedBins and energyBins fields are rewritten by the call. -/
theorem claim7_frame (o : Oracle) (useAcc : Bool) (e : Engine) :
    (getHistogramData o useAcc e).2.params = e.params ∧
    (getHistogramData o useAcc e).2.particles = e.particles ∧
    (getHistogramData o useAcc e).2.time = e.time ∧
    (getHistogramData o useAcc e).2.targetTemperature = e.targetTemperature ∧
    (getHistogramData o useAcc e).2.collectedSpeeds = e.collectedSpeeds ∧
    (getHistogramData o useAcc e).2.collectedEnergies = e.collectedEnergies ∧
    (getHistogramData o useAcc e).2.tempHistory = e.tempHistory ∧
    (getHistogramData o useAcc e).2.lastSampleTime = e.lastSampleTime := by
  unfold getHistogramData
  dsimp only
  split_ifs <;> exact ⟨rfl, rfl, rfl, rfl, rfl, rfl, rfl, rfl⟩

/-- C7 counterexample: on a freshly constructed one-particle engine, a
getHistogramData false call changes the stored speedBins (their counts go
from total 0 to total 1), so the call is not side-effect-free on the
engine state. -/
theorem claim7_counterexample :
    (getHistogramData c7O false (initEngine c7Params c7O)).2.speedBins
      ≠ (initEngine c7Params c7O).speedBins := by
  have hbins : (initEngine c7Params c7O).speedBins = mkBins 30 (7 / 60) c7O.mbSpeed := by
    norm_num [initEngine, initParticles, mapIdxFrom, mkParticle, cells, perSide,
      perSideSearch, spacingOf, jitterOf, clampQ, c7Params, c7O, zeroOracle, initBins]
  have hbinsE : (initEngine c7Params c7O).energyBins
      = mkBins 30 (49 / 240) c7O.mbEnergy := by
    norm_num [initEngine, initParticles, mapIdxFrom, mkParticle, cells, perSide,
      perSideSearch, spacingOf, jitterOf, clampQ, c7Params, c7O, zeroOracle, initBins]
  have hsrc : sampleSpeeds false (initEngine c7Params c7O) = [1] := by
    norm_num [sampleSpeeds, initEngine, initParticles, mapIdxFrom, mkParticle, cells,
      perSide, perSideSearch, spacingOf, jitterOf, clampQ, c7Params, c7O, zeroOracle]
  have hsrcE : sampleEnergies false (initEngine c7Params c7O) = [1 / 2] := by
    norm_num [sampleEnergies, initEngine, initParticles, mapIdxFrom, mkParticle, cells,
      perSide, perSideSearch, spacingOf, jitterOf, clampQ, c7Params, c7O, zeroOracle]
  obtain ⟨h1, _, _, _, h5, _⟩ :=
    hist_counts c7O false (initEngine c7Params c7O) (7 / 60) (49 / 240)
      (by rw [hbins]; exact mkBins_length 30 _ _)
      (by rw [hbinsE]; exact mkBins_length 30 _ _)
      (by
        rw [hbins, (mkBins_headD 30 (7 / 60) c7O.mbSpeed (by norm_num)).1,
          (mkBins_headD 30 (7 / 60) c7O.mbSpeed (by norm_num)).2]
        norm_num)
      (by
        rw [hbinsE, (mkBins_headD 30 (49 / 240) c7O.mbEnergy (by norm_num)).1,
          (mkBins_headD 30 (49 / 240) c7O.mbEnergy (by norm_num)).2]
        norm_num)
      (by norm_num) (by norm_num)
      (by rw [hsrc]; simp)
      (by rw [hsrc]; intro v hv; simp at hv; norm_num [hv])
      (by rw [hsrcE]; intro v hv; simp at hv; norm_num [hv])
      (by rw [hsrc, hsrcE]; rfl)
  intro hcon
  have hcount := congrArg countSum hcon
  rw [h5, h1, hsrc, hbins, countSum_mkBins] at hcount
  simp at hcount

end MD

namespace MD

theorem reachable_inv (e : Engine) (h : Reachable e) :
    e.particles.length = e.params.N ∧
    e.collectedSpeeds.length ≤ MAX_SAMPLES ∧
    e.collectedEnergies.length = e.collectedSpeeds.length ∧
    e.tempHistory.length ≤ MAX_HISTORY := by
  induction h with
  | init p o =>
    refine ⟨?_, by simp [initEngine, MAX_SAMPLES], by simp [initEngine],
      by simp [initEngine, MAX_HISTORY]⟩
    show (initParticles p o).length = p.N
    unfold initParticles
    rw [mapIdxFrom_length, List.length_take, cells_length]
    exact Nat.min_eq_left (perSide_le_cube p.N)
  | step e o hr ih =>
    obtain ⟨i1, i2, i3, i4⟩ := ih
    refine ⟨?_, i2, i3, i4⟩
    rw [step_particles_length]
    exact i1
  | collect e hr ih =>
    obtain ⟨i1, i2, i3, i4⟩ := ih
    have hplen : (e.particles.map fun q => q.speed).length = e.params.N := by
      rw [List.length_map, i1]
    have hplenE : (e.particles.map fun q => q.energy).length = e.params.N := by
      rw [List.length_map, i1]
    unfold collectSamples
    rcases lt_or_ge (e.time - e.lastSampleTime) (1 / 10) with hth | hth
    · rw [if_pos hth]
      exact ⟨i1, i2, i3, i4⟩
    rw [if_neg (not_lt.mpr hth)]
    dsimp only
    refine ⟨i1, ?_, ?_, ?_⟩
    · rcases lt_or_ge MAX_SAMPLES
        (e.collectedSpeeds ++ e.particles.map fun q => q.speed).length with hov | hov
      · rw [if_pos hov, List.length_drop, List.length_append, hplen]
        omega
      · rw [if_neg (not_lt.mpr hov)]
        rw [List.length_append, hplen] at hov
        rw [List.length_append, hplen]
        omega
    · rcases lt_or_ge MAX_SAMPLES
        (e.collectedSpeeds ++ e.particles.map fun q => q.speed).length with hov | hov
      · rw [if_pos hov, if_pos hov, List.length_drop, List.length_drop,
          List.length_append, List.length_append, hplen, hplenE, i3]
      · rw [if_neg (not_lt.mpr hov), if_neg (not_lt.mpr hov),
          List.length_append, List.length_append, hplen, hplenE, i3]
    · rcases lt_or_ge MAX_HISTORY
        (e.tempHistory ++ [tempRecordOf e]).length with hh | hh
      · rw [if_pos hh, List.length_drop]
        rw [List.length_append, List.length_cons, List.length_nil] at hh ⊢
        omega
      · rw [if_neg (not_lt.mpr hh)]
        rw [List.length_append, List.length_cons, List.length_nil] at hh ⊢
        omega

/-- C6: every engine state reachable by construction followed by any
sequence of step and collectSamples calls keeps the speed and energy
sample buffers at or below MAX_SAMPLES entries and the temperature
history at or below MAX_HISTORY entries.  All three buffers append new
entries at the tail, so dropping from the front evicts the oldest
entries: on sample overflow collectSamples removes exactly the oldest N
entries from the speed buffer and the oldest N entries from the energy
buffer (both keyed on the speed-buffer length, as in the source), on
history overflow it removes exactly the single oldest record, and
without overflow all appended entries are kept unchanged; nothing throws
and nothing grows without bound. -/
theorem claim6_buffer_bounds (e : Engine) (h : Reachable e) :
    e.collectedSpeeds.length ≤ MAX_SAMPLES ∧
    e.collectedEnergies.length ≤ MAX_SAMPLES ∧
    e.tempHistory.length ≤ MAX_HISTORY ∧
    (¬ (e.time - e.lastSampleTime < 1 / 10) →
      MAX_SAMPLES < (e.collectedSpeeds ++ e.particles.map fun q => q.speed).length →
      (collectSamples e).collectedSpeeds
        = (e.collectedSpeeds ++ e.particles.map fun q => q.speed).drop e.params.N ∧
      (collectSamples e).collectedEnergies
        = (e.collectedEnergies ++ e.particles.map fun q => q.energy).drop e.params.N) ∧
    (¬ (e.time - e.lastSampleTime < 1 / 10) →
      ¬ (MAX_SAMPLES < (e.collectedSpeeds ++ e.particles.map fun q => q.speed).length) →
      (collectSamples e).collectedSpeeds
        = e.collectedSpeeds ++ e.particles.map (fun q => q.speed) ∧
      (collectSamples e).collectedEnergies
        = e.collectedEnergies ++ e.particles.map (fun q => q.energy)) ∧
    (¬ (e.time - e.lastSampleTime < 1 / 10) →
      MAX_HISTORY < (e.tempHistory ++ [tempRecordOf e]).length →
      (collectSamples e).tempHistory = (e.tempHistory ++ [tempRecordOf e]).drop 1) ∧
    (¬ (e.time - e.lastSampleTime < 1 / 10) →
      ¬ (MAX_HISTORY < (e.tempHistory ++ [tempRecordOf e]).length) →
      (collectSamples e).tempHistory = e.tempHistory ++ [tempRecordOf e]) := by
  obtain ⟨i1, i2, i3, i4⟩ := reachable_inv e h
  refine ⟨i2, by rw [i3]; exact i2, i4, ?_, ?_, ?_, ?_⟩
  · intro h1 h2
    unfold collectSamples
    rw [if_neg h1]
    dsimp only
    rw [if_pos h2, if_pos h2]
    exact ⟨rfl, rfl⟩
  · intro h1 h2
    unfold collectSamples
    rw [if_neg h1]
    dsimp only
    rw [if_neg h2, if_neg h2]
    exact ⟨rfl, rfl⟩
  · intro h1 h2
    unfold collectSamples
    rw [if_neg h1]
    dsimp only
    rw [if_pos h2]
  · intro h1 h2
    unfold collectSamples
    rw [if_neg h1]
    dsimp only
    rw [if_neg h2]

/-- C6 witness: a freshly constructed engine is reachable and satisfies
the buffer bounds and all four eviction equations. -/
theorem claim6_buffer_bounds_witness :
    (initEngine c1Params c1InitO).collectedSpeeds.length ≤ MAX_SAMPLES ∧
    (initEngine c1Params c1InitO).collectedEnergies.length ≤ MAX_SAMPLES ∧
    (initEngine c1Params c1InitO).tempHistory.length ≤ MAX_HISTORY ∧
    (¬ ((initEngine c1Params c1InitO).time - (initEngine c1Params c1InitO).lastSampleTime < 1 / 10) →
      MAX_SAMPLES < ((initEngine c1Params c1InitO).collectedSpeeds ++
          (initEngine c1Params c1InitO).particles.map fun q => q.speed).length →
      (collectSamples (initEngine c1Params c1InitO)).collectedSpeeds
        = ((initEngine c1Params c1InitO).collectedSpeeds ++
            (initEngine c1Params c1InitO).particles.map fun q => q.speed).drop
            (initEngine c1Params c1InitO).params.N ∧
      (collectSamples (initEngine c1Params c1InitO)).collectedEnergies
        = ((initEngine c1Params c1InitO).collectedEnergies ++
            (initEngine c1Params c1InitO).particles.map fun q => q.energy).drop
            (initEngine c1Params c1InitO).params.N) ∧
    (¬ ((initEngine c1Params c1InitO).time - (initEngine c1Params c1InitO).lastSampleTime < 1 / 10) →
      ¬ (MAX_SAMPLES < ((initEngine c1Params c1InitO).collectedSpeeds ++
          (initEngine c1Params c1InitO).particles.map fun q => q.speed).length) →
      (collectSamples (initEngine c1Params c1InitO)).collectedSpeeds
        = (initEngine c1Params c1InitO).collectedSpeeds ++
            (initEngine c1Params c1InitO).particles.map (fun q => q.speed) ∧
      (collectSamples (initEngine c1Params c1InitO)).collectedEnergies
        = (initEngine c1Params c1InitO).collectedEnergies ++
            (initEngine c1Params c1InitO).particles.map (fun q => q.energy)) ∧
    (¬ ((initEngine c1Params c1InitO).time - (initEngine c1Params c1InitO).lastSampleTime < 1 / 10) →
      MAX_HISTORY < ((initEngine c1Params c1InitO).tempHistory ++
          [tempRecordOf (initEngine c1Params c1InitO)]).length →
      (collectSamples (initEngine c1Params c1InitO)).tempHistory
        = ((initEngine c1Params c1InitO).tempHistory ++
            [tempRecordOf (initEngine c1Params c1InitO)]).drop 1) ∧
    (¬ ((initEngine c1Params c1InitO).time - (initEngine c1Params c1InitO).lastSampleTime < 1 / 10) →
      ¬ (MAX_HISTORY < ((initEngine c1Params c1InitO).tempHistory ++
          [tempRecordOf (initEngine c1Params c1InitO)]).length) →
      (collectSamples (initEngine c1Params c1InitO)).tempHistory
        = (initEngine c1Params c1InitO).tempHistory ++
            [tempRecordOf (initEngine c1Params c1InitO)]) :=
  claim6_buffer_bounds _ (Reachable.init c1Params c1InitO)

/-- C8 counterexample: with the uniform draw 19/20 the single particle of
a one-particle system lands at x = 34/5, which is 0.18 of the spacing
away from the cell centre 5; no jitter of magnitude at most one tenth of
the spacing (here 1) can produce that position after clamping, so the
claimed plus-minus 20 percent of half the spacing bound is violated. -/
theorem claim8_counterexample :
    ((initEngine c7Params c8O).particles.map fun q => q.x) = [34 / 5] ∧
    (∀ j : ℚ, |j| ≤ 10 / 10 → clampQ 1 9 (5 + j) ≠ 34 / 5) := by
  constructor
  · norm_num [initEngine, initParticles, mapIdxFrom, mkParticle, cells, perSide,
      perSideSearch, spacingOf, jitterOf, clampQ, c7Params, c8O, zeroOracle]
  · intro j hj
    rw [abs_le] at hj
    unfold clampQ
    rw [min_eq_right (by linarith), max_eq_right (by linarith)]
    intro hcon
    have : j = 9 / 5 := by linarith
    linarith [hj.2]

/-- C8 amended: particles are placed on the grid with gridSide the exact
ceiling of the cube root of N and spacing L over gridSide; each axis is
the cell centre plus a jitter of magnitude at most 0.2 times the spacing
(that is, within plus-minus 20 percent of the spacing, equivalently 40
percent of half the spacing), then clamped into [r, L-r]. -/
theorem claim8_grid_placement (p : SimulationParams) (o : Oracle)
    (hL : 0 < p.L)
    (hrand : ∀ i, 0 ≤ o.rand i ∧ o.rand i ≤ 1) :
    (p.N ≤ perSide p.N ^ 3 ∧ ∀ mm, mm < perSide p.N → mm ^ 3 < p.N) ∧
    ∀ c : ℕ, c < (initEngine p o).particles.length →
      ((initEngine p o).particles.getD c default).x
        = clampQ p.r (p.L - p.r)
            (((((cells (perSide p.N)).take p.N).getD c default).1 : ℚ) * spacingOf p
              + spacingOf p / 2 + jitterOf o (spacingOf p) c) ∧
      ((initEngine p o).particles.getD c default).y
        = clampQ p.r (p.L - p.r)
            (((((cells (perSide p.N)).take p.N).getD c default).2.1 : ℚ) * spacingOf p
              + spacingOf p / 2 + jitterOf o (spacingOf p) c) ∧
      ((initEngine p o).particles.getD c default).z
        = clampQ p.r (p.L - p.r)
            (((((cells (perSide p.N)).take p.N).getD c default).2.2 : ℚ) * spacingOf p
              + spacingOf p / 2 + jitterOf o (spacingOf p) c) ∧
      |jitterOf o (spacingOf p) c| ≤ spacingOf p / 5 := by
  refine ⟨⟨perSide_le_cube p.N, perSide_min p.N⟩, ?_⟩
  intro c hc
  have hsp : 0 ≤ spacingOf p := div_nonneg hL.le (Nat.cast_nonneg _)
  have hpe : (initEngine p o).particles = initParticles p o := rfl
  rw [hpe] at hc ⊢
  have hc1 : c < (mapIdxFrom (mkParticle p o (spacingOf p)) 0
      ((cells (perSide p.N)).take p.N)).length := hc
  have hc2 : c < ((cells (perSide p.N)).take p.N).length := by
    rw [mapIdxFrom_length] at hc1
    exact hc1
  unfold initParticles
  rw [List.getD_eq_get _ _ hc1, mapIdxFrom_get, List.getD_eq_get _ _ hc2]
  rw [Nat.zero_add]
  unfold mkParticle
  dsimp only
  refine ⟨rfl, rfl, rfl, ?_⟩
  have hr := hrand c
  rw [jitterOf, abs_mul]
  have h1 : |o.rand c - 1 / 2| ≤ 1 / 2 :=
    abs_le.mpr ⟨by linarith [hr.1], by linarith [hr.2]⟩
  have h2 : |spacingOf p * (2 / 5)| = spacingOf p * (2 / 5) :=
    abs_of_nonneg (mul_nonneg hsp (by norm_num))
  rw [h2]
  calc |o.rand c - 1 / 2| * (spacingOf p * (2 / 5))
      ≤ 1 / 2 * (spacingOf p * (2 / 5)) :=
        mul_le_mul_of_nonneg_right h1 (mul_nonneg hsp (by norm_num))
    _ = spacingOf p / 5 := by ring

/-- C8 witness: the one-particle system instantiates the amended placement
statement: x is the clamped centre-plus-jitter and the jitter magnitude is
within one fifth of the spacing. -/
theorem claim8_grid_placement_witness :
    (0 : ℚ) < c7Params.L ∧
    ((initEngine c7Params c8O).particles.getD 0 default).x
      = clampQ c7Params.r (c7Params.L - c7Params.r)
          (((((cells (perSide c7Params.N)).take c7Params.N).getD 0 default).1 : ℚ)
            * spacingOf c7Params + spacingOf c7Params / 2
            + jitterOf c8O (spacingOf c7Params) 0) ∧
    |jitterOf c8O (spacingOf c7Params) 0| ≤ spacingOf c7Params / 5 := by
  have hlen : 0 < (initEngine c7Params c8O).particles.length := by
    show 0 < (initParticles c7Params c8O).length
    rw [initParticles, mapIdxFrom_length, List.length_take, cells_length]
    norm_num [perSide, perSideSearch, c7Params]
  have happ := (claim8_grid_placement c7Params c8O (by norm_num [c7Params])
    (fun i => ⟨by norm_num [c8O, zeroOracle], by norm_num [c8O, zeroOracle]⟩)).2 0 hlen
  exact ⟨by norm_num [c7Params], happ.1, happ.2.2.2⟩

end MD
